import Mathlib

/-!
Verification development for the helper module
src/networks/positional_encoding.py of the
Cross-Scale Self-Supervised Blind Image Deblurring repository.

The module is shallowly embedded:
- machine integers are Nat / Int;
- the float32 pixel arithmetic of pil_to_np / np_to_pil is modelled exactly,
  with nonnegative binary32 values represented as naturals scaled by 2 to
  the 31 (every value arising there is a dyadic rational with exponent at
  least -31, so the scaling is exact);
- tensors and numpy arrays are modelled by their shapes, plus explicit
  value functions where a claim is about values;
- in-place mutation (fill_noise, net_input.requires_grad) is modelled by
  explicit state passing;
- fallible code returns Except;
- Python strings are modelled as String or List Char, and the split,
  slice and replace operations used by the source are implemented
  structurally below so that they compute.
-/

set_option maxRecDepth 8000

instance {ε α : Type} [DecidableEq ε] [DecidableEq α] : DecidableEq (Except ε α) :=
  fun x y =>
    match x, y with
    | .ok a, .ok b =>
        if h : a = b then isTrue (by rw [h]) else isFalse (fun hc => h (Except.ok.inj hc))
    | .error a, .error b =>
        if h : a = b then isTrue (by rw [h]) else isFalse (fun hc => h (Except.error.inj hc))
    | .ok _, .error _ => isFalse (fun hc => Except.noConfusion hc)
    | .error _, .ok _ => isFalse (fun hc => Except.noConfusion hc)

/-- Round a / b (with b positive) to the nearest integer, ties to even.
This is the rounding step of IEEE-754 round-to-nearest-even once the
binary exponent has been fixed. -/
def rneDiv (a b : Nat) : Nat :=
  let q := a / b
  let r := a % b
  if 2 * r < b then q
  else if b < 2 * r then q + 1
  else if q % 2 = 0 then q else q + 1

/-- Smallest f (at most the fuel k) with 255 ≤ v * 2 ^ f: the number of
doublings needed to bring v / 255 into the binade [1, 2). -/
def fExp255 : Nat → Nat → Nat
  | _, 0 => 0
  | v, k + 1 => if 255 ≤ v then 0 else fExp255 (2 * v) k + 1

/-- The float32 value of v / 255 for v in [0, 255], scaled by 2 ^ 31.
This models the elementwise ar.astype(np.float32) / 255. of pil_to_np:
the quotient is rounded once to binary32 (24-bit significand,
round-to-nearest-even); all inputs lie in the normal range. -/
def f32_div255 (v : Nat) : Nat :=
  if v = 0 then 0
  else
    let f := fExp255 v 8
    rneDiv (v * 2 ^ (23 + f)) 255 * 2 ^ (8 - f)

/-- Largest e (at most the fuel k) with 2 ^ (31 + e) ≤ p, and 0 when p is
below 2 ^ 31: the binary exponent of p / 2 ^ 31 used when rounding the
product x * 255 back to binary32. -/
def eExpP : Nat → Nat → Nat
  | _, 0 => 0
  | p, k + 1 => if 2 ^ (31 + (k + 1)) ≤ p then k + 1 else eExpP p k

/-- np.clip(x * 255, 0, 255).astype(np.uint8) applied to a float32 value x
(given scaled by 2 ^ 31): the product with 255 is rounded to binary32
(round-to-nearest-even at the exponent found by eExpP), the clip bounds the
result to [0, 255], and the uint8 cast truncates toward zero. -/
def u8_of_f32_mul255 (x : Nat) : Nat :=
  if x = 0 then 0
  else
    let p := 255 * x
    let e := eExpP p 8
    min (rneDiv p (2 ^ (8 + e)) / 2 ^ (23 - e)) 255

theorem u8_of_f32_mul255_lt (x : Nat) : u8_of_f32_mul255 x < 256 := by
  unfold u8_of_f32_mul255
  split
  · omega
  · exact Nat.lt_succ_of_le (Nat.min_le_right _ _)

/-- The uint8 pixel produced by np_to_pil from a float32 array entry. -/
def u8clip (x : Nat) : Fin 256 :=
  ⟨u8_of_f32_mul255 x, u8_of_f32_mul255_lt x⟩

/-- A PIL image as read by np.array: either a single-channel 8-bit image
(mode L, a height x width array) or a 3-channel 8-bit image (mode RGB, a
height x width x 3 array). -/
inductive PILImage where
  | gray (h w : Nat) (pix : Fin h → Fin w → Fin 256)
  | rgb (h w : Nat) (pix : Fin h → Fin w → Fin 3 → Fin 256)

/-- A 3-dimensional numpy array of float32 values (scaled by 2 ^ 31),
indexed channel-first, as produced by pil_to_np. -/
structure NpImg where
  channels : Nat
  height : Nat
  width : Nat
  data : Fin channels → Fin height → Fin width → Nat

/-- The numpy shape tuple of an NpImg. -/
def NpImg.shape (a : NpImg) : List Nat :=
  [a.channels, a.height, a.width]

/-- pil_to_np: ar = np.array(img_PIL); 3-d arrays are transposed (2, 0, 1)
so the channel axis comes first, 2-d arrays get a leading singleton axis;
then ar.astype(np.float32) / 255. -/
def pil_to_np : PILImage → NpImg
  | .gray h w pix => ⟨1, h, w, fun _ i j => f32_div255 (pix i j)⟩
  | .rgb h w pix => ⟨3, h, w, fun c i j => f32_div255 (pix i j c)⟩

/-- np_to_pil: ar = np.clip(img_np * 255, 0, 255).astype(np.uint8); a
single-channel array is unwrapped to 2-d, otherwise the array is transposed
(1, 2, 0) back to channel-last; Image.fromarray then yields a mode L image
from a 2-d array and a mode RGB image from a height x width x 3 array, and
fails on other channel counts. -/
def np_to_pil (a : NpImg) : Except String PILImage :=
  if h1 : a.channels = 1 then
    .ok (.gray a.height a.width (fun i j => u8clip (a.data (Fin.cast h1.symm 0) i j)))
  else if h3 : a.channels = 3 then
    .ok (.rgb a.height a.width (fun i j c => u8clip (a.data (Fin.cast h3.symm c) i j)))
  else
    .error "Image.fromarray: unsupported channel count"

/-- The channel count of a PIL image (1 for mode L, 3 for mode RGB). -/
def PILImage.numChannels : PILImage → Nat
  | .gray _ _ _ => 1
  | .rgb _ _ _ => 3

/-- Pixel rows of a PIL image. -/
def PILImage.pHeight : PILImage → Nat
  | .gray h _ _ => h
  | .rgb h _ _ => h

/-- Pixel columns of a PIL image. -/
def PILImage.pWidth : PILImage → Nat
  | .gray _ w _ => w
  | .rgb _ w _ => w

/-- Python split on a comma, on the character list of the string: mirrors
str.split of Python, in particular splitting the empty string yields one
empty token. -/
def splitOnComma : List Char → List (List Char)
  | [] => [[]]
  | c :: rest =>
      match splitOnComma rest with
      | [] => [[]]
      | g :: gs => if c = ',' then [] :: g :: gs else (c :: g) :: gs

/-- One entry of the params list built by get_params: a parameter of the
network, a parameter of the downsampler, or the net_input tensor itself. -/
inductive ParamRef where
  | fromNet (i : Nat)
  | fromDown (i : Nat)
  | inputTensor
  deriving DecidableEq

/-- The observable state of a torch tensor for this module: its (flattened)
element values and the is_leaf / requires_grad flags read and written by
get_params.  In-place updates are modelled by returning a new state. -/
structure TensorState (α : Type) where
  values : List α
  is_leaf : Bool
  requires_grad : Bool
  deriving DecidableEq

/-- The effect of the statement net_input.requires_grad = True. -/
def setRequiresGrad {α : Type} (t : TensorState α) : TensorState α :=
  ⟨t.values, t.is_leaf, true⟩

/-- fill_noise(x, noise_type): x.uniform_() for u and x.normal_() for n
overwrite every element of x in place with freshly drawn noise (the drawn
sample sequence is passed explicitly as the noise argument); any other
noise_type hits assert False. -/
def fill_noise {α : Type} (x : TensorState α) (noise_type : String) (noise : List α) :
    Except String (TensorState α) :=
  if noise_type = "u" then .ok ⟨noise, x.is_leaf, x.requires_grad⟩
  else if noise_type = "n" then .ok ⟨noise, x.is_leaf, x.requires_grad⟩
  else .error "AssertionError"

/-- The token loop of get_params: net appends the network parameters to
params, down asserts a downsampler exists and rebinds params to exactly the
downsampler parameters, input appends net_input (setting requires_grad)
when net_input is a leaf, and any other token hits assert False. -/
def get_params_go {α : Type} (netPs : List ParamRef) (downPs : Option (List ParamRef)) :
    List (List Char) → List ParamRef → TensorState α →
      Except String (List ParamRef × TensorState α)
  | [], params, net_input => .ok (params, net_input)
  | opt :: rest, params, net_input =>
    if opt = "net".toList then
      get_params_go netPs downPs rest (params ++ netPs) net_input
    else if opt = "down".toList then
      match downPs with
      | none => .error "AssertionError"
      | some dp => get_params_go netPs downPs rest dp net_input
    else if opt = "input".toList then
      if net_input.is_leaf then
        get_params_go netPs downPs rest (params ++ [ParamRef.inputTensor])
          (setRequiresGrad net_input)
      else
        get_params_go netPs downPs rest params net_input
    else
      .error "AssertionError: unrecognized token"

/-- get_params(opt_over, net, net_input, downsampler): splits opt_over on
commas and folds the token loop over the resulting list, starting from the
empty params list.  The network parameters are abstracted as netPs and the
downsampler parameters as the optional downsampler argument. -/
def get_params {α : Type} (opt_over : String) (netPs : List ParamRef)
    (net_input : TensorState α) (downsampler : Option (List ParamRef)) :
    Except String (List ParamRef × TensorState α) :=
  get_params_go netPs downsampler (splitOnComma opt_over.toList) [] net_input

/-- The parameters one token selects: net selects the network parameters,
down the downsampler parameters, input the net_input tensor when it is a
leaf.  Used to state what get_params returns. -/
def selTok (netPs : List ParamRef) (downPs : Option (List ParamRef)) (leaf : Bool)
    (opt : List Char) : List ParamRef :=
  if opt = "net".toList then netPs
  else if opt = "down".toList then downPs.getD []
  else if opt = "input".toList then if leaf then [ParamRef.inputTensor] else []
  else []

/-- The suffix of a token list after its last down token (the whole list
when down does not occur). -/
def postLastDown : List (List Char) → List (List Char)
  | [] => []
  | o :: rest =>
      if "down".toList ∈ rest then postLastDown rest
      else if o = "down".toList then rest
      else o :: postLastDown rest

/-- Python path.replace applied with the pattern .dcm and the replacement
.png: every non-overlapping occurrence is rewritten, scanning left to
right. -/
def replace_dcm_png : List Char → List Char
  | '.' :: 'd' :: 'c' :: 'm' :: rest => '.' :: 'p' :: 'n' :: 'g' :: replace_dcm_png rest
  | c :: rest => c :: replace_dcm_png rest
  | [] => []

/-- What load(path) does to the outside world: which path it finally opens
with Image.open, and which files it saves to disk. -/
structure LoadResult where
  opened : List Char
  writes : List (List Char)
  deriving DecidableEq

/-- load(path): when the Python slice path[-4:] equals .dcm, the dicom
pixel data is converted and saved (img.save) under the path with .dcm
replaced by .png, and that new path is opened; otherwise the given path is
opened directly and nothing is written.  Paths are character lists; the
slice path[-4:] is the drop of all but the last four characters. -/
def load (path : List Char) : LoadResult :=
  if path.drop (path.length - 4) = ".dcm".toList then
    ⟨replace_dcm_png path, [replace_dcm_png path]⟩
  else
    ⟨path, []⟩

/-- The box passed to img.crop by crop_image, as left, upper, right, lower
pixel coordinates. -/
structure BBox where
  left : Nat
  upper : Nat
  right : Nat
  lower : Nat
  deriving DecidableEq

/-- crop_image(img, d) on an image of size (w, h): new_size drops each
dimension to the largest multiple of d, the box midpoints are computed with
int((..) / 2), and img.crop returns an image of size
(right - left, lower - upper).  Python raises ZeroDivisionError on w % 0,
so d = 0 is an error. -/
def crop_image (w h d : Nat) : Except String (BBox × (Nat × Nat)) :=
  if d = 0 then .error "ZeroDivisionError"
  else
    let new_w := w - w % d
    let new_h := h - h % d
    let bbox : BBox := ⟨(w - new_w) / 2, (h - new_h) / 2, (w + new_w) / 2, (h + new_h) / 2⟩
    .ok (bbox, (bbox.right - bbox.left, bbox.lower - bbox.upper))

/-- The numpy shape of the array returned by get_meshgrid(spatial_size):
np.meshgrid of an arange of length s1 and an arange of length s0 gives two
(s0, s1) arrays, and the concatenation along a new leading axis gives
(2, s0, s1). -/
def get_meshgrid_shape (s0 s1 : Nat) : List Nat :=
  [2, s0, s1]

/-- Whether get_meshgrid divides by zero: the two divisors are the Python
ints spatial_size[1] - 1 and spatial_size[0] - 1. -/
def get_meshgrid_divzero (s0 s1 : Nat) : Bool :=
  decide ((s1 : Int) - 1 = 0) || decide ((s0 : Int) - 1 = 0)

/-- The entries of the array returned by get_meshgrid, as exact rationals
(the source computes in float64; the claims proved about these entries are
order bounds that are preserved by rounding): channel 0 holds
X with X[i][j] = j / (s1 - 1), channel 1 holds Y with Y[i][j] = i / (s0 - 1). -/
def get_meshgrid_vals (s0 s1 : Nat) (c : Fin 2) (i : Fin s0) (j : Fin s1) : ℚ :=
  if c.val = 0 then (j : ℚ) / ((s1 : ℚ) - 1) else (i : ℚ) / ((s0 : ℚ) - 1)

/-- Shape of tensor.permute: dimension i of the result is dimension perm[i]
of the input. -/
def permuteShape (perm : List Nat) (s : List Nat) : List Nat :=
  perm.map (fun i => s.getD i 0)

/-- Shape effect of indexing with None / unsqueeze(0): a new leading axis. -/
def unsqueeze0 (s : List Nat) : List Nat :=
  1 :: s

/-- Shape effect of torch.unsqueeze(t, -1): a new trailing axis. -/
def unsqueezeLast (s : List Nat) : List Nat :=
  s ++ [1]

/-- Combination of one dimension pair under numpy / torch broadcasting (a
size-1 dimension stretches to the other operand). -/
def bdim (a b : Nat) : Nat :=
  if a = 1 then b else if b = 1 then a else max a b

/-- Right-aligned broadcast of two shapes, on reversed dimension lists. -/
def broadcastRev : List Nat → List Nat → List Nat
  | [], t => t
  | s, [] => s
  | a :: s, b :: t => bdim a b :: broadcastRev s t

/-- The broadcast shape of an elementwise product of two tensors. -/
def broadcastShape (s t : List Nat) : List Nat :=
  (broadcastRev s.reverse t.reverse).reverse

/-- Shape of torch.cat of k same-shaped tensors along the last dimension. -/
def catLast (k : Nat) (s : List Nat) : List Nat :=
  s.dropLast ++ [k * s.getLastD 0]

/-- Shape of tensor.flatten(-2, -1): the last two dimensions merge into
their product. -/
def flattenLast2 (s : List Nat) : List Nat :=
  s.take (s.length - 2) ++ [s.getD (s.length - 2) 1 * s.getD (s.length - 1) 1]

/-- Shape of torch.concat of k copies of a tensor along axis 1. -/
def catDim1 (k : Nat) (s : List Nat) : List Nat :=
  s.take 1 ++ [k * s.getD 1 0] ++ s.drop 2

/-- Shape of generate_fourier_feature_maps(net_input, spatial_size, dtype,
only_cosine) where net_input is the 1-d tensor of the n_freqs frequencies:
the meshgrid is permuted (1, 2, 0) and unsqueezed to (1, s0, s1, 2), vp
broadcasts the frequencies against a trailing unsqueeze, vp_cat
concatenates cos(vp) alone or cos(vp) and sin(vp) along the last dimension,
and the result is flattened over the last two dimensions and permuted
(0, 3, 1, 2). -/
def generate_fourier_feature_maps_shape (n_freqs s0 s1 : Nat) (only_cosine : Bool) :
    List Nat :=
  let meshgrid := unsqueeze0 (permuteShape [1, 2, 0] (get_meshgrid_shape s0 s1))
  let vp := broadcastShape [n_freqs] (unsqueezeLast meshgrid)
  let vp_cat := catLast (if only_cosine then 1 else 2) vp
  permuteShape [0, 3, 1, 2] (flattenLast2 vp_cat)

/-- The freq_dict argument of get_input: either a plain string (the default
value is the string log, and subscripting a string with a string raises
TypeError) or a dict with keys method, base, n_freqs, cosine_only. -/
inductive FreqDictArg where
  | str (s : String)
  | dict (method : String) (base : ℚ) (n_freqs : Nat) (cosine_only : Bool)

/-- The shape of the tensor returned by get_input(input_depth, method,
spatial_size, noise_type, var, freq_dict), with failures as errors:
noise builds a zeros tensor of shape (1, input_depth, s0, s1) and fills it
in place (fill_noise asserts the noise_type is u or n; the var scaling does
not change the shape); meshgrid wraps the (2, s0, s1) meshgrid via
np_to_torch into (1, 2, s0, s1) and concatenates input_depth // 2 copies
along axis 1, which torch rejects for an empty copy tuple; fourier requires
freq_dict[method] to be log (ValueError otherwise) and returns the fourier
feature maps of the n_freqs frequencies; infer_freqs likewise requires log
and returns the 1-d frequency tensor itself; any other method hits
assert False. -/
def get_input_shape (input_depth : Nat) (method : String) (s0 s1 : Nat)
    (noise_type : String) (freq_dict : FreqDictArg) : Except String (List Nat) :=
  if method = "noise" then
    if noise_type = "u" ∨ noise_type = "n" then .ok [1, input_depth, s0, s1]
    else .error "AssertionError"
  else if method = "meshgrid" then
    if input_depth / 2 = 0 then .error "RuntimeError: torch.concat of an empty tuple"
    else .ok (catDim1 (input_depth / 2) (unsqueeze0 (get_meshgrid_shape s0 s1)))
  else if method = "fourier" then
    match freq_dict with
    | .str _ => .error "TypeError: string indices must be integers"
    | .dict m _ n cos =>
        if m = "log" then .ok (generate_fourier_feature_maps_shape n s0 s1 cos)
        else .error "ValueError"
  else if method = "infer_freqs" then
    match freq_dict with
    | .str _ => .error "TypeError: string indices must be integers"
    | .dict m _ n _ =>
        if m = "log" then .ok [n] else .error "ValueError"
  else .error "AssertionError"

/-- One observable action of the optimization loop.  The learning rate is
carried on the optimizer steps; the single call optimizer.step(closure2) of
the LBFGS branch is one event recording the max_iter and lr the LBFGS
optimizer was built with (what happens inside it is library code). -/
inductive OptEvent where
  | zeroGrad
  | closureCall
  | adamStep (lr : ℚ)
  | schedulerStep
  | lbfgsStep (max_iter : Nat) (lr : ℚ)
  deriving DecidableEq

/-- Whether an event is the LBFGS step. -/
def isLbfgsStep : OptEvent → Bool
  | .lbfgsStep _ _ => true
  | _ => false

/-- The trace of optimize(optimizer_type, parameters, closure, LR,
num_iter, scheduler_step): the LBFGS branch first runs 100 Adam iterations
with lr 0.001 (each iteration zero_grad, closure, step) and then performs
one LBFGS step built with max_iter = num_iter and lr = LR; the adam branch
runs num_iter iterations (each zero_grad, closure, step, plus a scheduler
step when scheduler_step is not -1); any other optimizer_type hits
assert False. -/
def optimize (optimizer_type : String) (LR : ℚ) (num_iter : Nat)
    (scheduler_step : Int) : Except String (List OptEvent) :=
  if optimizer_type = "LBFGS" then
    .ok (List.flatten (List.replicate 100
          [OptEvent.zeroGrad, OptEvent.closureCall, OptEvent.adamStep (1 / 1000)]) ++
        [OptEvent.lbfgsStep num_iter LR])
  else if optimizer_type = "adam" then
    .ok (List.flatten (List.replicate num_iter
          ([OptEvent.zeroGrad, OptEvent.closureCall, OptEvent.adamStep LR] ++
            (if scheduler_step = -1 then [] else [OptEvent.schedulerStep]))))
  else .error "AssertionError"

theorem pixel_roundtrip : ∀ v : Fin 256, u8clip (f32_div255 v.val) = v := by
  decide

theorem f32_div255_le : ∀ v : Fin 256, f32_div255 v.val ≤ 2 ^ 31 := by
  decide

/-- Claim C7: pil_to_np and np_to_pil are mutually inverse: for every 8-bit
image with 1 or 3 channels, np_to_pil of pil_to_np of the image succeeds and
returns an image with exactly the same pixel values and dimensions.  The
binary32 arithmetic of the round trip is modelled exactly. -/
theorem np_to_pil_pil_to_np (img : PILImage) :
    np_to_pil (pil_to_np img) = Except.ok img := by
  cases img with
  | gray h w pix =>
      have hpix : (fun i j => u8clip (f32_div255 (pix i j))) = pix := by
        funext i j
        exact pixel_roundtrip (pix i j)
      simp [np_to_pil, pil_to_np, hpix]
  | rgb h w pix =>
      have hpix : (fun i j (c : Fin 3) => u8clip (f32_div255 (pix i j c))) = pix := by
        funext i j c
        exact pixel_roundtrip (pix i j c)
      simp [np_to_pil, pil_to_np, Fin.cast, hpix]

/-- Claim C8: pil_to_np returns a 3-dimensional float32 array whose first
axis is the channel axis (of size 1 for a 2-d grayscale input and 3 for an
RGB input, followed by the two spatial axes) and whose entries all lie in
[0, 1] (entries are binary32 values scaled by 2 ^ 31, so the unit interval
is [0, 2 ^ 31]). -/
theorem pil_to_np_shape_and_range (img : PILImage) :
    (pil_to_np img).shape.length = 3 ∧
    (pil_to_np img).shape = img.numChannels :: [img.pHeight, img.pWidth] ∧
    ∀ c i j, 0 ≤ (pil_to_np img).data c i j ∧ (pil_to_np img).data c i j ≤ 2 ^ 31 := by
  cases img with
  | gray h w pix =>
      exact ⟨rfl, rfl, fun c i j => ⟨Nat.zero_le _, f32_div255_le (pix i j)⟩⟩
  | rgb h w pix =>
      exact ⟨rfl, rfl, fun c i j => ⟨Nat.zero_le _, f32_div255_le (pix i j c)⟩⟩

/-- Claim C9: for every image size (w, h) and every d ≥ 1, crop_image
returns an image of size (w - w % d, h - h % d) — each dimension the
largest multiple of d not exceeding the original — by a centered box: the
left and top margins are the floors and the right and bottom margins the
ceilings of half the removed amounts. -/
theorem crop_image_spec (w h d : Nat) (hd : 1 ≤ d) :
    (crop_image w h d).map (fun p => p.2) = Except.ok (w - w % d, h - h % d) ∧
    (crop_image w h d).map (fun p => (p.1.left, w - p.1.right, p.1.upper, h - p.1.lower)) =
      Except.ok (w % d / 2, (w % d + 1) / 2, h % d / 2, (h % d + 1) / 2) := by
  obtain ⟨r, hr, hrw⟩ : ∃ r, r ≤ w ∧ w % d = r := ⟨w % d, Nat.mod_le w d, rfl⟩
  obtain ⟨s, hs, hsh⟩ : ∃ s, s ≤ h ∧ h % d = s := ⟨h % d, Nat.mod_le h d, rfl⟩
  unfold crop_image
  rw [if_neg (by omega)]
  rw [hrw, hsh]
  simp only [Except.map, Prod.mk.injEq, Except.ok.injEq]
  refine ⟨⟨?_, ?_⟩, ?_, ?_, ?_, ?_⟩ <;> omega

/-- Witness for claim C9 at an image of size (10, 7) with d = 4. -/
theorem crop_image_spec_witness :
    (crop_image 10 7 4).map (fun p => p.2) = Except.ok (8, 4) ∧
    (crop_image 10 7 4).map (fun p => (p.1.left, 10 - p.1.right, p.1.upper, 7 - p.1.lower)) =
      Except.ok (1, 1, 1, 2) := by
  have h := crop_image_spec 10 7 4 (by decide)
  simpa using h

/-- Claim C10: for spatial sizes both at least 2, get_meshgrid divides by
no zero, returns shape (2, s0, s1) and all entries lie in [0, 1]; when
either component equals 1 the corresponding divisor spatial_size - 1 is
zero. -/
theorem get_meshgrid_spec (s0 s1 : Nat) :
    (2 ≤ s0 → 2 ≤ s1 →
      get_meshgrid_divzero s0 s1 = false ∧
      get_meshgrid_shape s0 s1 = [2, s0, s1] ∧
      ∀ (c : Fin 2) (i : Fin s0) (j : Fin s1),
        0 ≤ get_meshgrid_vals s0 s1 c i j ∧ get_meshgrid_vals s0 s1 c i j ≤ 1) ∧
    ((s0 = 1 ∨ s1 = 1) → get_meshgrid_divzero s0 s1 = true) := by
  constructor
  · intro h0 h1
    refine ⟨?_, rfl, ?_⟩
    · simp only [get_meshgrid_divzero, Bool.or_eq_false_iff, decide_eq_false_iff_not]
      omega
    · intro c i j
      unfold get_meshgrid_vals
      split
      · have hj := j.isLt
        have hpos : (0 : ℚ) < (s1 : ℚ) - 1 := by
          have h2 : (2 : ℚ) ≤ (s1 : ℚ) := by exact_mod_cast h1
          linarith
        refine ⟨div_nonneg (Nat.cast_nonneg _) hpos.le, (div_le_one hpos).mpr ?_⟩
        have hj2 : ((j : Nat) : ℚ) + 1 ≤ (s1 : ℚ) := by exact_mod_cast hj
        linarith
      · have hi := i.isLt
        have hpos : (0 : ℚ) < (s0 : ℚ) - 1 := by
          have h2 : (2 : ℚ) ≤ (s0 : ℚ) := by exact_mod_cast h0
          linarith
        refine ⟨div_nonneg (Nat.cast_nonneg _) hpos.le, (div_le_one hpos).mpr ?_⟩
        have hi2 : ((i : Nat) : ℚ) + 1 ≤ (s0 : ℚ) := by exact_mod_cast hi
        linarith
  · intro h
    simp only [get_meshgrid_divzero, Bool.or_eq_true, decide_eq_true_eq]
    omega

/-- Witness for claim C10 at spatial sizes (3, 3) and (1, 3). -/
theorem get_meshgrid_spec_witness :
    (get_meshgrid_divzero 3 3 = false ∧
     get_meshgrid_shape 3 3 = [2, 3, 3] ∧
     ∀ (c : Fin 2) (i : Fin 3) (j : Fin 3),
       0 ≤ get_meshgrid_vals 3 3 c i j ∧ get_meshgrid_vals 3 3 c i j ≤ 1) ∧
    get_meshgrid_divzero 1 3 = true :=
  ⟨(get_meshgrid_spec 3 3).1 (by decide) (by decide),
   (get_meshgrid_spec 1 3).2 (Or.inl rfl)⟩

/-- Counterexample to claim C2: load on a path ending in .dcm saves a
converted .png image to disk, so load does not leave the filesystem
unchanged for every input path. -/
theorem load_counterexample :
    (load "img.dcm".toList).writes = ["img.png".toList] ∧
    (["img.png".toList] : List (List Char)) ≠ [] := by
  decide

/-- Claim C2 (amended): load(path) creates or modifies no file on disk
exactly when path does not end in .dcm; when path ends in .dcm, load saves
exactly one file, the path with .dcm replaced by .png, and opens that file
instead of the given one. -/
theorem load_writes_spec (path : List Char) :
    (¬ ".dcm".toList <:+ path →
      (load path).writes = [] ∧ (load path).opened = path) ∧
    (".dcm".toList <:+ path →
      (load path).writes = [replace_dcm_png path] ∧
      (load path).opened = replace_dcm_png path) := by
  have hiff : path.drop (path.length - 4) = ".dcm".toList ↔ ".dcm".toList <:+ path := by
    constructor
    · intro h
      exact h ▸ List.drop_suffix _ _
    · intro h
      exact (List.suffix_iff_eq_drop.mp h).symm
  constructor
  · intro h
    unfold load
    rw [if_neg (fun hc => h (hiff.mp hc))]
    exact ⟨rfl, rfl⟩
  · intro h
    unfold load
    rw [if_pos (hiff.mpr h)]
    exact ⟨rfl, rfl⟩

/-- Witness for claim C2 at the paths a.png and b.dcm. -/
theorem load_writes_spec_witness :
    ((load "a.png".toList).writes = [] ∧ (load "a.png".toList).opened = "a.png".toList) ∧
    ((load "b.dcm".toList).writes = [replace_dcm_png "b.dcm".toList] ∧
     (load "b.dcm".toList).opened = replace_dcm_png "b.dcm".toList) :=
  ⟨(load_writes_spec "a.png".toList).1 (by decide),
   (load_writes_spec "b.dcm".toList).2 (by decide)⟩

/-- Counterexample to claim C3: fill_noise does not leave x unchanged (the
in-place x.uniform_() overwrites its values) and get_params does not leave
net_input unchanged (it sets requires_grad on a leaf input), shown at
concrete inputs. -/
theorem mutation_counterexample :
    fill_noise (⟨[0], true, false⟩ : TensorState Int) "u" [1] =
      Except.ok (⟨[1], true, false⟩ : TensorState Int) ∧
    (⟨[1], true, false⟩ : TensorState Int) ≠ ⟨[0], true, false⟩ ∧
    get_params "input" [] (⟨[], true, false⟩ : TensorState Int) none =
      Except.ok ([ParamRef.inputTensor], (⟨[], true, true⟩ : TensorState Int)) ∧
    (⟨[], true, true⟩ : TensorState Int) ≠ ⟨[], true, false⟩ := by
  decide

/-- Claim C3 (amended): the module does mutate arguments: fill_noise
overwrites every element of x in place with the drawn noise, keeping the
flags of x, and get_params over the token input sets
net_input.requires_grad to true (and returns the tensor in the params
list) exactly when net_input is a leaf; a non-leaf net_input is left
unchanged and unselected. -/
theorem fill_noise_get_params_mutate {α : Type} (x : TensorState α) (noise : List α)
    (nt : String) (hnt : nt = "u" ∨ nt = "n") (netPs : List ParamRef)
    (t : TensorState α) :
    fill_noise x nt noise = Except.ok ⟨noise, x.is_leaf, x.requires_grad⟩ ∧
    get_params "input" netPs t none =
      Except.ok (if t.is_leaf then ([ParamRef.inputTensor], setRequiresGrad t)
                 else ([], t)) := by
  constructor
  · rcases hnt with h | h <;> simp [fill_noise, h]
  · show get_params_go netPs none (splitOnComma "input".toList) [] t = _
    have hsplit : splitOnComma "input".toList = ["input".toList] := by decide
    rw [hsplit]
    by_cases hl : t.is_leaf <;> simp [get_params_go, hl]

/-- Witness for claim C3 at concrete tensors over Int values. -/
theorem fill_noise_get_params_mutate_witness :
    fill_noise (⟨[5], false, true⟩ : TensorState Int) "n" [7] =
      Except.ok (⟨[7], false, true⟩ : TensorState Int) ∧
    get_params "input" [ParamRef.fromNet 0] (⟨[9], true, false⟩ : TensorState Int) none =
      Except.ok (if (⟨[9], true, false⟩ : TensorState Int).is_leaf
                 then ([ParamRef.inputTensor], setRequiresGrad ⟨[9], true, false⟩)
                 else ([], ⟨[9], true, false⟩)) :=
  fill_noise_get_params_mutate ⟨[5], false, true⟩ [7] "n" (Or.inr rfl)
    [ParamRef.fromNet 0] ⟨[9], true, false⟩

theorem postLastDown_of_not_mem (toks : List (List Char)) (h : "down".toList ∉ toks) :
    postLastDown toks = toks := by
  induction toks with
  | nil => rfl
  | cons o rest ih =>
      have ho : o ≠ "down".toList := by
        intro hc
        subst hc
        exact h (List.mem_cons_self _ _)
      have hr : "down".toList ∉ rest := fun hc => h (List.mem_cons_of_mem _ hc)
      simp only [postLastDown]
      rw [if_neg hr, if_neg ho, ih hr]


theorem selTok_net (netPs : List ParamRef) (dps : Option (List ParamRef)) (l : Bool) :
    selTok netPs dps l "net".toList = netPs := by
  simp [selTok]

theorem selTok_input (netPs : List ParamRef) (dps : Option (List ParamRef)) (l : Bool) :
    selTok netPs dps l "input".toList = if l then [ParamRef.inputTensor] else [] := by
  simp [selTok]

theorem get_params_go_spec {α : Type} (netPs dp : List ParamRef) :
    ∀ (toks : List (List Char)) (acc : List ParamRef) (t : TensorState α),
      (∀ o ∈ toks, o = "net".toList ∨ o = "down".toList ∨ o = "input".toList) →
      get_params_go netPs (some dp) toks acc t =
        Except.ok
          ((if "down".toList ∈ toks then dp else acc) ++
             List.flatten ((postLastDown toks).map (selTok netPs (some dp) t.is_leaf)),
           if "input".toList ∈ toks ∧ t.is_leaf = true then setRequiresGrad t else t) := by
  intro toks
  induction toks with
  | nil =>
      intro acc t hv
      simp [get_params_go, postLastDown]
  | cons o rest ih =>
      intro acc t hv
      have hvr : ∀ o2 ∈ rest, o2 = "net".toList ∨ o2 = "down".toList ∨ o2 = "input".toList :=
        fun o2 h2 => hv o2 (List.mem_cons_of_mem _ h2)
      have hnd : ¬ (("net".toList : List Char) = "down".toList) := by decide
      have hdn : ¬ (("down".toList : List Char) = "net".toList) := by decide
      have hid : ¬ (("input".toList : List Char) = "down".toList) := by decide
      have hdi : ¬ (("down".toList : List Char) = "input".toList) := by decide
      rcases hv o (List.mem_cons_self o rest) with h | h | h
      · subst h
        have hmd : ("down".toList ∈ "net".toList :: rest) ↔ ("down".toList ∈ rest) := by
          simp [List.mem_cons, hdn]
        have hmi : ("input".toList ∈ "net".toList :: rest) ↔ ("input".toList ∈ rest) := by
          have : ¬ (("input".toList : List Char) = "net".toList) := by decide
          simp [List.mem_cons, this]
        have hstep : get_params_go netPs (some dp) ("net".toList :: rest) acc t =
            get_params_go netPs (some dp) rest (acc ++ netPs) t := by
          simp [get_params_go]
        rw [hstep, ih (acc ++ netPs) t hvr]
        simp only [Except.ok.injEq, Prod.mk.injEq]
        refine ⟨?_, by simp only [hmi]⟩
        by_cases hd : "down".toList ∈ rest
        · have hp : postLastDown ("net".toList :: rest) = postLastDown rest := by
            simp only [postLastDown]
            rw [if_pos hd]
          rw [hp, if_pos hd, if_pos (hmd.mpr hd)]
        · have hp : postLastDown ("net".toList :: rest) = "net".toList :: rest := by
            simp only [postLastDown]
            rw [if_neg hd, if_neg hnd, postLastDown_of_not_mem rest hd]
          rw [hp, postLastDown_of_not_mem rest hd, if_neg hd,
              if_neg (fun hc => hd (hmd.mp hc)), List.map_cons, List.flatten_cons,
              selTok_net, List.append_assoc]
      · subst h
        have hmi : ("input".toList ∈ "down".toList :: rest) ↔ ("input".toList ∈ rest) := by
          simp [List.mem_cons, hid]
        have hstep : get_params_go netPs (some dp) ("down".toList :: rest) acc t =
            get_params_go netPs (some dp) rest dp t := by
          simp [get_params_go]
        rw [hstep, ih dp t hvr]
        simp only [Except.ok.injEq, Prod.mk.injEq]
        refine ⟨?_, by simp only [hmi]⟩
        rw [ite_self, if_pos (List.mem_cons_self _ _)]
        by_cases hd : "down".toList ∈ rest
        · have hp : postLastDown ("down".toList :: rest) = postLastDown rest := by
            simp only [postLastDown]
            rw [if_pos hd]
          rw [hp]
        · have hp : postLastDown ("down".toList :: rest) = rest := by
            simp only [postLastDown]
            rw [if_neg hd]
            simp
          rw [hp, postLastDown_of_not_mem rest hd]
      · subst h
        have hmd : ("down".toList ∈ "input".toList :: rest) ↔ ("down".toList ∈ rest) := by
          simp [List.mem_cons, hdi]
        by_cases hl : t.is_leaf
        · have hstep : get_params_go netPs (some dp) ("input".toList :: rest) acc t =
              get_params_go netPs (some dp) rest (acc ++ [ParamRef.inputTensor])
                (setRequiresGrad t) := by
            simp [get_params_go, hl]
          rw [hstep, ih (acc ++ [ParamRef.inputTensor]) (setRequiresGrad t) hvr]
          simp only [Except.ok.injEq, Prod.mk.injEq]
          have hsl : (setRequiresGrad t).is_leaf = t.is_leaf := rfl
          have hss : setRequiresGrad (setRequiresGrad t) = setRequiresGrad t := rfl
          constructor
          · rw [hsl, hl]
            by_cases hd : "down".toList ∈ rest
            · have hp : postLastDown ("input".toList :: rest) = postLastDown rest := by
                simp only [postLastDown]
                rw [if_pos hd]
              rw [hp, if_pos hd, if_pos (hmd.mpr hd)]
            · have hp : postLastDown ("input".toList :: rest) = "input".toList :: rest := by
                simp only [postLastDown]
                rw [if_neg hd, if_neg hid, postLastDown_of_not_mem rest hd]
              rw [hp, postLastDown_of_not_mem rest hd, if_neg hd,
                  if_neg (fun hc => hd (hmd.mp hc)), List.map_cons, List.flatten_cons,
                  selTok_input, if_pos rfl, List.append_assoc]
          · rw [hss, hsl, ite_self,
                if_pos (⟨List.mem_cons_self _ _, hl⟩ :
                  "input".toList ∈ "input".toList :: rest ∧ t.is_leaf = true)]
        · have hlf : t.is_leaf = false := by
            rwa [Bool.not_eq_true] at hl
          have hstep : get_params_go netPs (some dp) ("input".toList :: rest) acc t =
              get_params_go netPs (some dp) rest acc t := by
            simp [get_params_go, hlf]
          rw [hstep, ih acc t hvr]
          simp only [Except.ok.injEq, Prod.mk.injEq]
          constructor
          · by_cases hd : "down".toList ∈ rest
            · have hp : postLastDown ("input".toList :: rest) = postLastDown rest := by
                simp only [postLastDown]
                rw [if_pos hd]
              rw [hp, if_pos hd, if_pos (hmd.mpr hd)]
            · have hp : postLastDown ("input".toList :: rest) = "input".toList :: rest := by
                simp only [postLastDown]
                rw [if_neg hd, if_neg hid, postLastDown_of_not_mem rest hd]
              rw [hp, postLastDown_of_not_mem rest hd, if_neg hd,
                  if_neg (fun hc => hd (hmd.mp hc)), List.map_cons, List.flatten_cons,
                  selTok_input, hlf, if_neg (by simp), List.nil_append]
          · simp [hlf]

/-- Counterexample to claim C4: with opt_over equal to net,down the network
parameter selected by the earlier net token is dropped by the later down
token, so get_params does not return the concatenation of the selections of
the tokens in order. -/
theorem get_params_counterexample :
    get_params "net,down" [ParamRef.fromNet 0] (⟨[], true, false⟩ : TensorState Int)
      (some [ParamRef.fromDown 0]) =
      Except.ok ([ParamRef.fromDown 0], (⟨[], true, false⟩ : TensorState Int)) ∧
    ([ParamRef.fromDown 0] : List ParamRef) ≠ [ParamRef.fromNet 0, ParamRef.fromDown 0] := by
  decide

/-- Claim C4 (amended): for every comma-separated opt_over string whose
tokens are among net, down and input, get_params succeeds and returns the
concatenation, in token order, of the parameters selected by the tokens
after the last down token, prefixed by the downsampler parameters when a
down token occurs: the down branch rebinds the params list instead of
appending, so parameters selected by earlier tokens are dropped by a later
down token; moreover input selects net_input only when net_input is a
leaf, in which case its requires_grad flag is set. -/
theorem get_params_spec {α : Type} (opt_over : String) (netPs dp : List ParamRef)
    (t : TensorState α)
    (hvalid : ∀ o ∈ splitOnComma opt_over.toList,
        o = "net".toList ∨ o = "down".toList ∨ o = "input".toList) :
    get_params opt_over netPs t (some dp) =
      Except.ok
        ((if "down".toList ∈ splitOnComma opt_over.toList then dp else []) ++
           List.flatten ((postLastDown (splitOnComma opt_over.toList)).map
             (selTok netPs (some dp) t.is_leaf)),
         if "input".toList ∈ splitOnComma opt_over.toList ∧ t.is_leaf = true
         then setRequiresGrad t else t) :=
  get_params_go_spec netPs dp (splitOnComma opt_over.toList) [] t hvalid

/-- Witness for claim C4 at opt_over net,down,input with one network
parameter, one downsampler parameter and a leaf input tensor. -/
theorem get_params_spec_witness :
    get_params "net,down,input" [ParamRef.fromNet 0] (⟨[], true, false⟩ : TensorState Int)
      (some [ParamRef.fromDown 0]) =
      Except.ok ([ParamRef.fromDown 0, ParamRef.inputTensor],
        (⟨[], true, true⟩ : TensorState Int)) := by
  rw [get_params_spec "net,down,input" [ParamRef.fromNet 0] [ParamRef.fromDown 0]
      (⟨[], true, false⟩ : TensorState Int) (by decide)]
  decide

/-- Counterexample to claim C5: get_input also succeeds for the method
infer_freqs (returning the 1-d frequency tensor), although infer_freqs is
none of noise, meshgrid, fourier. -/
theorem get_input_methods_counterexample :
    (("infer_freqs" : String) ≠ "noise" ∧ ("infer_freqs" : String) ≠ "meshgrid" ∧
      ("infer_freqs" : String) ≠ "fourier") ∧
    get_input_shape 4 "infer_freqs" 4 4 "u" (FreqDictArg.dict "log" 2 8 false) =
      Except.ok [8] :=
  ⟨⟨by decide, by decide, by decide⟩, rfl⟩

/-- Claim C5 (amended): get_input fails for every method string outside
noise, meshgrid, fourier and infer_freqs; it does not fail for exactly the
three methods noise, meshgrid and fourier, because infer_freqs with a valid
log-spaced freq_dict also succeeds. -/
theorem get_input_methods (d s0 s1 : Nat) (m nt : String) (fd : FreqDictArg)
    (b : ℚ) (n : Nat) (c : Bool) :
    (m ≠ "noise" → m ≠ "meshgrid" → m ≠ "fourier" → m ≠ "infer_freqs" →
      (get_input_shape d m s0 s1 nt fd).isOk = false) ∧
    get_input_shape d "infer_freqs" s0 s1 nt (FreqDictArg.dict "log" b n c) =
      Except.ok [n] := by
  constructor
  · intro h1 h2 h3 h4
    unfold get_input_shape
    rw [if_neg h1, if_neg h2, if_neg h3, if_neg h4]
    rfl
  · rfl

/-- Witness for claim C5 at the unsupported method sgd and at infer_freqs. -/
theorem get_input_methods_witness :
    (get_input_shape 4 "sgd" 4 4 "u" (FreqDictArg.str "log")).isOk = false ∧
    get_input_shape 4 "infer_freqs" 4 4 "u" (FreqDictArg.dict "log" 2 8 false) =
      Except.ok [8] :=
  ⟨(get_input_methods 4 4 4 "sgd" "u" (FreqDictArg.str "log") 2 8 false).1
      (by decide) (by decide) (by decide) (by decide),
   (get_input_methods 4 4 4 "infer_freqs" "u" (FreqDictArg.str "log") 2 8 false).2⟩

theorem bdim_one_right (a : Nat) : bdim a 1 = a := by
  unfold bdim
  split
  · omega
  · simp

theorem generate_fourier_shape_eval (n s0 s1 : Nat) (c : Bool) :
    generate_fourier_feature_maps_shape n s0 s1 c = [1, (if c then 2 else 4) * n, s0, s1] := by
  cases c <;>
    simp [generate_fourier_feature_maps_shape, unsqueeze0, unsqueezeLast, permuteShape,
          get_meshgrid_shape, broadcastShape, broadcastRev, bdim_one_right, catLast,
          flattenLast2, List.getD] <;>
    omega

/-- Counterexample to claim C1: with input_depth 3 (which is ≥ 1) and
method meshgrid, get_input returns a tensor of shape 1 x 2 x 4 x 4, not
1 x 3 x 4 x 4: the meshgrid branch can only produce the even channel count
2 * (input_depth // 2). -/
theorem get_input_shape_counterexample :
    get_input_shape 3 "meshgrid" 4 4 "u" (FreqDictArg.str "log") =
      Except.ok [1, 2, 4, 4] ∧
    ([1, 2, 4, 4] : List Nat) ≠ [1, 3, 4, 4] :=
  ⟨rfl, by decide⟩

/-- Claim C1 (amended): get_input returns a tensor of size
1 x input_depth x s0 x s1 for method noise (with a valid noise_type); for
meshgrid the channel count is 2 * (input_depth // 2) — equal to input_depth
only for even input_depth — and input_depth ≤ 1 is an error; for fourier
with a valid log-spaced freq_dict the channel count is 4 * n_freqs
(2 * n_freqs when cosine_only), independent of input_depth. -/
theorem get_input_shape_spec (d s0 s1 n : Nat) (b : ℚ) (c : Bool) (nt : String)
    (fd : FreqDictArg) :
    ((nt = "u" ∨ nt = "n") →
      get_input_shape d "noise" s0 s1 nt fd = Except.ok [1, d, s0, s1]) ∧
    (2 ≤ d →
      get_input_shape d "meshgrid" s0 s1 nt fd = Except.ok [1, 2 * (d / 2), s0, s1]) ∧
    (d ≤ 1 → (get_input_shape d "meshgrid" s0 s1 nt fd).isOk = false) ∧
    get_input_shape d "fourier" s0 s1 nt (FreqDictArg.dict "log" b n c) =
      Except.ok [1, (if c then 2 else 4) * n, s0, s1] := by
  refine ⟨?_, ?_, ?_, ?_⟩
  · intro h
    unfold get_input_shape
    rw [if_pos rfl, if_pos h]
  · intro h
    unfold get_input_shape
    rw [if_neg (by decide), if_pos rfl, if_neg (by omega)]
    simp [catDim1, unsqueeze0, get_meshgrid_shape, List.getD, Nat.mul_comm]
  · intro h
    unfold get_input_shape
    rw [if_neg (by decide), if_pos rfl, if_pos (by omega)]
    rfl
  · unfold get_input_shape
    rw [if_neg (by decide), if_neg (by decide), if_pos rfl]
    simp [generate_fourier_shape_eval]

/-- Witness for claim C1 at input depths 4 and 1, spatial size (5, 6) and
3 log-spaced frequencies. -/
theorem get_input_shape_spec_witness :
    get_input_shape 4 "noise" 5 6 "u" (FreqDictArg.str "log") = Except.ok [1, 4, 5, 6] ∧
    get_input_shape 4 "meshgrid" 5 6 "u" (FreqDictArg.str "log") =
      Except.ok [1, 4, 5, 6] ∧
    (get_input_shape 1 "meshgrid" 5 6 "u" (FreqDictArg.str "log")).isOk = false ∧
    get_input_shape 4 "fourier" 5 6 "u" (FreqDictArg.dict "log" 2 3 false) =
      Except.ok [1, 12, 5, 6] := by
  refine ⟨?_, ?_, ?_, ?_⟩
  · exact (get_input_shape_spec 4 5 6 3 2 false "u" (FreqDictArg.str "log")).1 (Or.inl rfl)
  · have h := (get_input_shape_spec 4 5 6 3 2 false "u" (FreqDictArg.str "log")).2.1
      (by decide)
    simpa using h
  · exact (get_input_shape_spec 1 5 6 3 2 false "u" (FreqDictArg.str "log")).2.2.1
      (by decide)
  · have h := (get_input_shape_spec 4 5 6 3 2 false "u" (FreqDictArg.str "log")).2.2.2
    simpa using h

theorem count_flatten_replicate {β : Type} [DecidableEq β] (k : Nat) (l : List β) (a : β) :
    (List.flatten (List.replicate k l)).count a = k * l.count a := by
  induction k with
  | zero => simp
  | succ k ih =>
      simp only [List.replicate_succ, List.flatten_cons, List.count_append, ih]
      ring

theorem countP_flatten_replicate {β : Type} (k : Nat) (l : List β) (p : β → Bool) :
    (List.flatten (List.replicate k l)).countP p = k * l.countP p := by
  induction k with
  | zero => simp
  | succ k ih =>
      simp only [List.replicate_succ, List.flatten_cons, List.countP_append, ih]
      ring

/-- Claim C6: optimize with optimizer_type adam runs num_iter iterations,
each performing exactly one zero_grad, one closure call and one optimizer
step, so the closure is invoked exactly num_iter times and no LBFGS step
occurs; with optimizer_type LBFGS it first invokes the closure exactly 100
times under an Adam optimizer with learning rate 0.001 (one zero_grad and
one Adam step per invocation) before performing a single LBFGS step; every
other optimizer_type fails. -/
theorem optimize_spec (ot : String) (LR : ℚ) (ni : Nat) (ss : Int) :
    (ot = "adam" → ∃ block : List OptEvent,
      optimize ot LR ni ss = Except.ok (List.flatten (List.replicate ni block)) ∧
      block.count OptEvent.zeroGrad = 1 ∧
      block.count OptEvent.closureCall = 1 ∧
      block.count (OptEvent.adamStep LR) = 1 ∧
      (List.flatten (List.replicate ni block)).count OptEvent.closureCall = ni ∧
      (List.flatten (List.replicate ni block)).countP isLbfgsStep = 0) ∧
    (ot = "LBFGS" → ∃ pre : List OptEvent,
      optimize ot LR ni ss = Except.ok (pre ++ [OptEvent.lbfgsStep ni LR]) ∧
      pre.count OptEvent.closureCall = 100 ∧
      pre.count OptEvent.zeroGrad = 100 ∧
      pre.count (OptEvent.adamStep (1 / 1000)) = 100 ∧
      pre.countP isLbfgsStep = 0) ∧
    (ot ≠ "adam" → ot ≠ "LBFGS" → (optimize ot LR ni ss).isOk = false) := by
  refine ⟨?_, ?_, ?_⟩
  · intro h
    subst h
    refine ⟨[OptEvent.zeroGrad, OptEvent.closureCall, OptEvent.adamStep LR] ++
        (if ss = -1 then [] else [OptEvent.schedulerStep]), ?_, ?_, ?_, ?_, ?_, ?_⟩
    · unfold optimize
      rw [if_neg (by decide), if_pos rfl]
    · by_cases hss : ss = -1 <;>
        simp [hss, List.count_cons, List.count_append, beq_iff_eq]
    · by_cases hss : ss = -1 <;>
        simp [hss, List.count_cons, List.count_append, beq_iff_eq]
    · by_cases hss : ss = -1 <;>
        simp [hss, List.count_cons, List.count_append, beq_iff_eq]
    · rw [count_flatten_replicate]
      by_cases hss : ss = -1 <;>
        simp [hss, List.count_cons, List.count_append, beq_iff_eq]
    · rw [countP_flatten_replicate]
      by_cases hss : ss = -1 <;>
        simp [hss, List.countP_cons, List.countP_append, isLbfgsStep]
  · intro h
    subst h
    refine ⟨List.flatten (List.replicate 100
        [OptEvent.zeroGrad, OptEvent.closureCall, OptEvent.adamStep (1 / 1000)]),
      ?_, ?_, ?_, ?_, ?_⟩
    · unfold optimize
      rw [if_pos rfl]
    · rw [count_flatten_replicate]
      simp [List.count_cons, beq_iff_eq]
    · rw [count_flatten_replicate]
      simp [List.count_cons, beq_iff_eq]
    · rw [count_flatten_replicate]
      simp [List.count_cons, beq_iff_eq]
    · rw [countP_flatten_replicate]
      simp [List.countP_cons, isLbfgsStep]
  · intro h1 h2
    unfold optimize
    rw [if_neg h2, if_neg h1]
    rfl

/-- Witness for claim C6 at adam with 3 iterations and learning rate 1, at
LBFGS, and at the unsupported optimizer type sgd. -/
theorem optimize_spec_witness :
    (∃ block : List OptEvent,
      optimize "adam" 1 3 (-1) = Except.ok (List.flatten (List.replicate 3 block)) ∧
      block.count OptEvent.zeroGrad = 1 ∧
      block.count OptEvent.closureCall = 1 ∧
      block.count (OptEvent.adamStep 1) = 1 ∧
      (List.flatten (List.replicate 3 block)).count OptEvent.closureCall = 3 ∧
      (List.flatten (List.replicate 3 block)).countP isLbfgsStep = 0) ∧
    (∃ pre : List OptEvent,
      optimize "LBFGS" 1 3 (-1) = Except.ok (pre ++ [OptEvent.lbfgsStep 3 1]) ∧
      pre.count OptEvent.closureCall = 100 ∧
      pre.count OptEvent.zeroGrad = 100 ∧
      pre.count (OptEvent.adamStep (1 / 1000)) = 100 ∧
      pre.countP isLbfgsStep = 0) ∧
    (optimize "sgd" 1 3 (-1)).isOk = false :=
  ⟨(optimize_spec "adam" 1 3 (-1)).1 rfl,
   (optimize_spec "LBFGS" 1 3 (-1)).2.1 rfl,
   (optimize_spec "sgd" 1 3 (-1)).2.2 (by decide) (by decide)⟩
